import Mathlib

/-!
Verification of the `blockless.rs` HTTP session wrapper.

The Rust source wraps four host primitives (`http_open`, `http_read_header`,
`http_read_body`, `http_close`), each returning a numeric status code.  The
host side is foreign (an FFI import), so it is modelled here as explicit data
passed to each embedded operation: a single `HostRead` response per primitive
call, and a whole response trace (`List HostRead`) for the read loops, which
make exactly one host call per iteration.  Machine integers (`u32`) are
modelled as `Nat`; the only wrap-relevant constant is `u32::MAX`, the retry
sentinel, kept as the explicit value `u32Max`.
-/

/-- The sentinel `u32::MAX` used by the host to signal "retry". -/
def u32Max : Nat := 2 ^ 32 - 1

/-- Embeds the Rust `enum HttpErrorKind` from `blockless.rs`. -/
inductive HttpErrorKind where
  | InvalidDriver
  | InvalidHandle
  | MemoryAccessError
  | BufferTooSmall
  | HeaderNotFound
  | Utf8Error
  | DestinationNotAllowed
  | InvalidMethod
  | InvalidEncoding
  | InvalidUrl
  | RequestError
  | RuntimeError
  | TooManySessions
  | PermissionDeny
deriving Repr, DecidableEq

/-- Embeds `impl From<u32> for HttpErrorKind`: the Rust `match` on the host
code, written as the equivalent chain of equality tests with the same
catch-all `RuntimeError` arm. -/
def HttpErrorKind.fromU32 (i : Nat) : HttpErrorKind :=
  if i = 1 then .InvalidHandle
  else if i = 2 then .MemoryAccessError
  else if i = 3 then .BufferTooSmall
  else if i = 4 then .HeaderNotFound
  else if i = 5 then .Utf8Error
  else if i = 6 then .DestinationNotAllowed
  else if i = 7 then .InvalidMethod
  else if i = 8 then .InvalidEncoding
  else if i = 9 then .InvalidUrl
  else if i = 10 then .RequestError
  else if i = 11 then .RuntimeError
  else if i = 12 then .TooManySessions
  else if i = 13 then .PermissionDeny
  else .RuntimeError

/-- Embeds `pub struct BlocklessHttp \x7b inner: Handle, code: CodeStatus \x7d`. -/
structure BlocklessHttp where
  inner : Nat
  code : Nat
deriving Repr, DecidableEq

/-- Embeds `pub fn get_code(&self) -> CodeStatus`. -/
def BlocklessHttp.get_code (h : BlocklessHttp) : Nat :=
  h.code

/-- One host response to a buffered-read primitive call (`http_read_body` or
`http_read_header`): the returned status code `code`, the out-parameter
`count` (`num` in the Rust), and the bytes the host wrote into the scratch
buffer. -/
structure HostRead where
  code : Nat
  count : Nat
  data : List Nat
deriving Repr, DecidableEq

/-- The scratch buffer size `1024` of `let mut buf = [0u8; 1024]`. -/
def bufSize : Nat := 1024

/-- The scratch buffer contents after the host wrote `d`: the buffer starts
zero-initialised, so it is `d` (clipped to the buffer) padded with zeros up to
`bufSize`. -/
def scratch (d : List Nat) : List Nat :=
  d.take bufSize ++ List.replicate (bufSize - d.length) 0

/-- Outcome of a read loop, together with the number of host primitive calls
performed.  `panicked` is the Rust panic on the out-of-bounds slice
`&buf[0..num]` when `num > 1024`; `exhausted` marks a run that would call the
host again after the given finite response trace ended. -/
inductive ReadResult (α : Type) where
  | ok (val : α) (iters : Nat)
  | err (kind : HttpErrorKind) (iters : Nat)
  | panicked (iters : Nat)
  | exhausted (iters : Nat)
deriving Repr, DecidableEq

/-- Adds one performed host call to a loop outcome. -/
def ReadResult.bump : ReadResult α → ReadResult α
  | .ok v n => .ok v (n + 1)
  | .err k n => .err k (n + 1)
  | .panicked n => .panicked (n + 1)
  | .exhausted n => .exhausted (n + 1)

/-- Whether the outcome is the out-of-bounds-slice panic. -/
def ReadResult.isPanic : ReadResult α → Bool
  | .panicked _ => true
  | _ => false

/-- Embeds the shared `loop` body of `get_all_body` and `get_header`
(`blockless.rs` lines 91–107 and 113–137): one trace element per host call.
`rs == u32::MAX` retries; any other non-zero `rs` returns the mapped error;
on `rs == 0`, `num > 0` appends `&buf[0..num]` (a panic if `num > 1024`)
and loops, while `num == 0` breaks with the accumulator. -/
def readLoop (acc : List Nat) : List HostRead → ReadResult (List Nat)
  | [] => .exhausted 0
  | r :: rest =>
    if r.code = u32Max then
      (readLoop acc rest).bump
    else if r.code ≠ 0 then
      .err (HttpErrorKind.fromU32 r.code) 1
    else if r.count = 0 then
      .ok acc 1
    else if r.count ≤ bufSize then
      (readLoop (acc ++ (scratch r.data).take r.count) rest).bump
    else
      .panicked 1

/-- Embeds `pub fn get_all_body(&self)` run against the host response trace
`tr`: the read loop started from the empty accumulator. -/
def BlocklessHttp.get_all_body (_h : BlocklessHttp) (tr : List HostRead) :
    ReadResult (List Nat) :=
  readLoop [] tr

/-- A code-0 host read delivering exactly the chunk `d`. -/
def chunkRead (d : List Nat) : HostRead :=
  ⟨0, d.length, d⟩

/-- The code-0, zero-count host read that terminates a streaming read. -/
def endRead : HostRead :=
  ⟨0, 0, []⟩

/-- ASCII lowercase hex digit for `n < 16`, as in the serde_json escape
table `0123456789abcdef`. -/
def hexDigit (n : Nat) : Char :=
  if n < 10 then Char.ofNat (48 + n) else Char.ofNat (87 + n)

/-- Models serde_json string-escaping of one character: `"` and `\` get a
backslash, the control characters `\x08 \x09 \x0a \x0c \x0d` use their short
escapes, other control characters use `\u00jk`, everything else is written
verbatim. -/
def escapeChar (c : Char) : List Char :=
  if c = '"' then ['\\', '"']
  else if c = '\\' then ['\\', '\\']
  else if c.toNat = 8 then ['\\', 'b']
  else if c.toNat = 9 then ['\\', 't']
  else if c.toNat = 10 then ['\\', 'n']
  else if c.toNat = 12 then ['\\', 'f']
  else if c.toNat = 13 then ['\\', 'r']
  else if c.toNat < 32 then
    ['\\', 'u', '0', '0', hexDigit (c.toNat / 16), hexDigit (c.toNat % 16)]
  else [c]

/-- serde_json escaping of a whole string body. -/
def escapeString (s : List Char) : List Char :=
  s.flatMap escapeChar

/-- Numeric value of a hex digit character (JSON `\u` escapes accept both
cases). -/
def hexVal (c : Char) : Option Nat :=
  if '0' ≤ c ∧ c ≤ '9' then some (c.toNat - 48)
  else if 'a' ≤ c ∧ c ≤ 'f' then some (c.toNat - 87)
  else if 'A' ≤ c ∧ c ≤ 'F' then some (c.toNat - 55)
  else none

/-- Value of a four-hex-digit `\uXXXX` escape. -/
def hex4 (a b c d : Char) : Option Nat :=
  match hexVal a, hexVal b, hexVal c, hexVal d with
  | some x, some y, some z, some w => some (((x * 16 + y) * 16 + z) * 16 + w)
  | _, _, _, _ => none

/-- Models the serde_json JSON-string parser, positioned just after the
opening quote: returns the decoded content and the characters after the
closing quote.  Handles the escapes `\\" \\\\ \\/ \\b \\f \\n \\r \\t` and
`\\uXXXX` for non-surrogate code points, and rejects raw control characters
and lone surrogates, as serde_json does.  (Surrogate-pair `\\u` escapes are
not modelled: the serializer being inverted never emits them, and the
development only evaluates this parser on serializer output.) -/
def parseStringBody : List Char → Option (List Char × List Char)
  | [] => none
  | c :: rest =>
    if c = '"' then some ([], rest)
    else if c = '\\' then
      match rest with
      | [] => none
      | e :: rest1 =>
        if e = '"' then (parseStringBody rest1).map (fun p => ('"' :: p.1, p.2))
        else if e = '\\' then (parseStringBody rest1).map (fun p => ('\\' :: p.1, p.2))
        else if e = '/' then (parseStringBody rest1).map (fun p => ('/' :: p.1, p.2))
        else if e = 'b' then (parseStringBody rest1).map (fun p => (Char.ofNat 8 :: p.1, p.2))
        else if e = 'f' then (parseStringBody rest1).map (fun p => (Char.ofNat 12 :: p.1, p.2))
        else if e = 'n' then (parseStringBody rest1).map (fun p => (Char.ofNat 10 :: p.1, p.2))
        else if e = 'r' then (parseStringBody rest1).map (fun p => (Char.ofNat 13 :: p.1, p.2))
        else if e = 't' then (parseStringBody rest1).map (fun p => (Char.ofNat 9 :: p.1, p.2))
        else if e = 'u' then
          match rest1 with
          | z1 :: z2 :: h3 :: h4 :: rest2 =>
            match hex4 z1 z2 h3 h4 with
            | some code =>
              if code < 0xD800 ∨ 0xE000 ≤ code then
                (parseStringBody rest2).map (fun p => (Char.ofNat code :: p.1, p.2))
              else none
            | none => none
          | _ => none
        else none
    else if c.toNat < 32 then none
    else (parseStringBody rest).map (fun p => (c :: p.1, p.2))

/-- Embeds `pub struct FetchOptions \x7b method: String \x7d`. -/
structure FetchOptions where
  method : String
deriving Repr, DecidableEq

/-- Embeds `FetchOptions::new`. -/
def FetchOptions.new (m : String) : FetchOptions :=
  ⟨m⟩

/-- Embeds `FetchOptions::to_string`, i.e. `serde_json::to_string(&self)` for
the derived `Serialize`: the compact object with the single field `method`. -/
def FetchOptions.to_string (o : FetchOptions) : List Char :=
  '\x7b' :: '"' :: ("method".data ++ ('"' :: ':' :: '"' ::
    (escapeString o.method.data ++ ['"', '\x7d'])))

/-- Models `serde_json::from_str::<FetchOptions>` on the compact single-field
objects the derived serializer emits: the object must contain exactly the
string-valued field `method`, whose JSON string body is decoded by
`parseStringBody`. -/
def FetchOptions.from_str (s : List Char) : Option FetchOptions :=
  match s with
  | c0 :: c1 :: c2 :: c3 :: c4 :: c5 :: c6 :: c7 :: c8 :: c9 :: c10 :: rest =>
    if c0 = '\x7b' ∧ c1 = '"' ∧ c2 = 'm' ∧ c3 = 'e' ∧ c4 = 't' ∧ c5 = 'h' ∧
       c6 = 'o' ∧ c7 = 'd' ∧ c8 = '"' ∧ c9 = ':' ∧ c10 = '"' then
      match parseStringBody rest with
      | some (content, r) =>
        if r = ['\x7d'] then some ⟨String.mk content⟩ else none
      | _ => none
    else none
  | _ => none

/-- The subset of `serde_json::Value` the program constructs: null, unsigned
numbers and strings (the one object it builds is kept as a field list). -/
inductive JsonValue where
  | null
  | num (n : Nat)
  | str (s : String)
deriving Repr, DecidableEq

/-- Embeds `pub struct HttpOptions`. -/
structure HttpOptions where
  method : String
  connect_timeout : Nat
  read_timeout : Nat
  body : Option String
deriving Repr, DecidableEq

/-- Embeds `HttpOptions::new` (body is always `None`). -/
def HttpOptions.new (m : String) (connect read : Nat) : HttpOptions :=
  ⟨m, connect, read, none⟩

/-- Embeds `HttpOptions::to_json`: the `json!` object literal, as its field
list in source order.  `self.body` is an `Option`, which serde serializes as
JSON null when it is `None` — the key is always present. -/
def HttpOptions.to_json (o : HttpOptions) : List (String × JsonValue) :=
  [("method", .str o.method),
   ("connectTimeout", .num o.connect_timeout),
   ("readTimeout", .num o.read_timeout),
   ("headers", .str "\x7b\x7d"),
   ("body", match o.body with
            | some b => .str b
            | none => .null)]

/-- Byte-wise (here character-wise; the keys in use are ASCII, where the two
orders agree) lexicographic comparison, the `BTreeMap<String, Value>` key
order of a `serde_json::Value` object. -/
def charsLt : List Char → List Char → Bool
  | [], [] => false
  | [], _ :: _ => true
  | _ :: _, [] => false
  | a :: as, b :: bs =>
    if a < b then true
    else if b < a then false
    else charsLt as bs

/-- Inserts a field into a key-sorted field list (models `BTreeMap`
insertion; the keys in use are distinct, so overwrite never occurs). -/
def insertField (f : String × JsonValue) :
    List (String × JsonValue) → List (String × JsonValue)
  | [] => [f]
  | g :: gs =>
    if charsLt g.1.data f.1.data then g :: insertField f gs
    else f :: g :: gs

/-- Key-sorts a field list, as building a `serde_json::Value` object from the
`json!` literal does. -/
def sortFields : List (String × JsonValue) → List (String × JsonValue)
  | [] => []
  | f :: fs => insertField f (sortFields fs)

/-- Compact serde_json serialization of a primitive value. -/
def jsonValueStr : JsonValue → List Char
  | .null => "null".data
  | .num n => (Nat.repr n).data
  | .str s => '"' :: (escapeString s.data ++ ['"'])

/-- Compact serialization of one `"key":value` field. -/
def fieldStr (f : String × JsonValue) : List Char :=
  '"' :: (escapeString f.1.data ++ ('"' :: ':' :: jsonValueStr f.2))

/-- Comma-joined serialization of a field list. -/
def fieldsStr : List (String × JsonValue) → List Char
  | [] => []
  | [f] => fieldStr f
  | f :: g :: gs => fieldStr f ++ (',' :: fieldsStr (g :: gs))

/-- Embeds `serde_json::to_string(&Value)` for an object: fields in
`BTreeMap` key order between braces. -/
def jsonObjStr (fs : List (String × JsonValue)) : List Char :=
  '\x7b' :: (fieldsStr (sortFields fs) ++ ['\x7d'])

/-- The serialized Request Descriptor `open` passes to the host:
`serde_json::to_string(&HttpOptions::new(&opts.method, 30, 10).to_json())`
(`blockless.rs` lines 61–62). -/
def optionsJsonStr (opts : FetchOptions) : List Char :=
  jsonObjStr ((HttpOptions.new opts.method 30 10).to_json)

/-- The host response to one `http_open` call: the returned code and the two
out-parameters `fd` and `status`. -/
structure OpenResponse where
  code : Nat
  fd : Nat
  status : Nat
deriving Repr, DecidableEq

/-- Embeds `BlocklessHttp::open` (`open` is a Lean keyword, hence the name):
it builds `HttpOptions::new(&opts.method, 30, 10)`, serializes its
`to_json()`, calls the host open primitive with the url and that string, and
either returns the mapped error (non-zero code) or wraps the host-provided
`fd` and `status` into a `BlocklessHttp`. -/
def BlocklessHttp.openRequest (url : String) (opts : FetchOptions)
    (host : String → List Char → OpenResponse) :
    Except HttpErrorKind BlocklessHttp :=
  let r := host url (optionsJsonStr opts)
  if r.code ≠ 0 then .error (HttpErrorKind.fromU32 r.code)
  else .ok ⟨r.fd, r.status⟩

/-- Embeds `pub fn close(self)`: one `http_close(self.inner)` host call whose
return code is discarded.  The result is the unit value together with the
trace of close calls performed, each recorded as (handle passed, code the
host returned). -/
def BlocklessHttp.close (h : BlocklessHttp) (hostClose : Nat → Nat) :
    Unit × List (Nat × Nat) :=
  ((), [(h.inner, hostClose h.inner)])

/-- Embeds `pub fn read_body(&self, buf: &mut [u8])`: a single
`http_read_body` call answered by `r`; any non-zero code (the retry sentinel
included) is mapped through `From<u32>`, otherwise the reported count is
returned. -/
def BlocklessHttp.read_body (_h : BlocklessHttp) (r : HostRead) :
    Except HttpErrorKind Nat :=
  if r.code ≠ 0 then .error (HttpErrorKind.fromU32 r.code)
  else .ok r.count

/-- Standard UTF-8 encoding of one scalar value, as Rust `String`s store
their text. -/
def utf8EncodeChar (c : Char) : List Nat :=
  let n := c.toNat
  if n < 0x80 then [n]
  else if n < 0x800 then [0xC0 + n / 64, 0x80 + n % 64]
  else if n < 0x10000 then
    [0xE0 + n / 4096, 0x80 + (n / 64) % 64, 0x80 + n % 64]
  else
    [0xF0 + n / 0x40000, 0x80 + (n / 4096) % 64, 0x80 + (n / 64) % 64, 0x80 + n % 64]

/-- The byte buffer `header.as_ptr() .. header.len()` a Rust `&str` exposes:
its UTF-8 bytes. -/
def strBytes (s : String) : List Nat :=
  s.data.flatMap utf8EncodeChar

/-- Standard UTF-8 decoding (the validation `String::from_utf8` performs):
rejects continuation-byte starts, overlong forms (`< 0xC2`, and the `0xE0` /
`0xF0` second-byte floors), surrogates (`0xED` ceiling) and values past
U+10FFFF (`0xF4` ceiling / `≥ 0xF5` starts). -/
def utf8DecodeChars : List Nat → Option (List Char)
  | [] => some []
  | b0 :: rest =>
    if b0 < 0x80 then
      (utf8DecodeChars rest).map (fun cs => Char.ofNat b0 :: cs)
    else if b0 < 0xC2 then none
    else if b0 < 0xE0 then
      match rest with
      | b1 :: rest1 =>
        if 0x80 ≤ b1 ∧ b1 < 0xC0 then
          (utf8DecodeChars rest1).map (fun cs =>
            Char.ofNat ((b0 - 0xC0) * 64 + (b1 - 0x80)) :: cs)
        else none
      | [] => none
    else if b0 < 0xF0 then
      match rest with
      | b1 :: b2 :: rest2 =>
        if (if b0 = 0xE0 then 0xA0 ≤ b1 ∧ b1 < 0xC0
            else if b0 = 0xED then 0x80 ≤ b1 ∧ b1 < 0xA0
            else 0x80 ≤ b1 ∧ b1 < 0xC0) ∧ 0x80 ≤ b2 ∧ b2 < 0xC0 then
          (utf8DecodeChars rest2).map (fun cs =>
            Char.ofNat ((b0 - 0xE0) * 4096 + (b1 - 0x80) * 64 + (b2 - 0x80)) :: cs)
        else none
      | _ => none
    else if b0 < 0xF5 then
      match rest with
      | b1 :: b2 :: b3 :: rest3 =>
        if (if b0 = 0xF0 then 0x90 ≤ b1 ∧ b1 < 0xC0
            else if b0 = 0xF4 then 0x80 ≤ b1 ∧ b1 < 0x90
            else 0x80 ≤ b1 ∧ b1 < 0xC0) ∧
           (0x80 ≤ b2 ∧ b2 < 0xC0) ∧ (0x80 ≤ b3 ∧ b3 < 0xC0) then
          (utf8DecodeChars rest3).map (fun cs =>
            Char.ofNat ((b0 - 0xF0) * 0x40000 + (b1 - 0x80) * 4096 +
              (b2 - 0x80) * 64 + (b3 - 0x80)) :: cs)
        else none
      | _ => none
    else none

/-- Models Rust `String::from_utf8`. -/
def from_utf8 (bytes : List Nat) : Option String :=
  (utf8DecodeChars bytes).map String.mk

/-- Embeds `pub fn get_header(&self, header: &str)`: the read loop over the
host responses to `http_read_header` calls carrying the header's UTF-8
bytes (`host` maps those bytes to the session's response trace), followed by
`String::from_utf8(vec).map_err(|_| HttpErrorKind::Utf8Error)`. -/
def BlocklessHttp.get_header (_h : BlocklessHttp) (header : String)
    (host : List Nat → List HostRead) : ReadResult String :=
  match readLoop [] (host (strBytes header)) with
  | .ok bytes n =>
    match from_utf8 bytes with
    | some s => .ok s n
    | none => .err HttpErrorKind.Utf8Error n
  | .err k n => .err k n
  | .panicked n => .panicked n
  | .exhausted n => .exhausted n

/-- Adds `n` performed host calls to a loop outcome. -/
def addIters : Nat → ReadResult α → ReadResult α
  | 0, r => r
  | n + 1, r => (addIters n r).bump

theorem u32Max_ne_zero : u32Max ≠ 0 := by decide

theorem scratch_length (d : List Nat) : (scratch d).length = bufSize := by
  simp only [scratch, List.length_append, List.length_take, List.length_replicate]
  omega

theorem scratch_take (d : List Nat) (h : d.length ≤ bufSize) :
    (scratch d).take d.length = d := by
  rw [scratch, List.take_of_length_le h]
  exact List.take_left d _

theorem take_scratch_length (d : List Nat) (n : Nat) (h : n ≤ bufSize) :
    ((scratch d).take n).length = n := by
  rw [List.length_take, scratch_length]
  omega

theorem readLoop_retry (acc : List Nat) (r : HostRead) (rest : List HostRead)
    (h : r.code = u32Max) :
    readLoop acc (r :: rest) = (readLoop acc rest).bump := by
  simp only [readLoop, h, if_pos rfl, if_true, ite_true]

theorem readLoop_err (acc : List Nat) (r : HostRead) (rest : List HostRead)
    (h1 : r.code ≠ u32Max) (h2 : r.code ≠ 0) :
    readLoop acc (r :: rest) = .err (HttpErrorKind.fromU32 r.code) 1 := by
  simp only [readLoop]
  rw [if_neg h1, if_pos h2]

theorem readLoop_done (acc : List Nat) (r : HostRead) (rest : List HostRead)
    (h1 : r.code = 0) (h2 : r.count = 0) :
    readLoop acc (r :: rest) = .ok acc 1 := by
  have hne : ¬ r.code = u32Max := by rw [h1]; exact (Ne.symm u32Max_ne_zero)
  simp only [readLoop]
  rw [if_neg hne, if_neg (not_not_intro h1), if_pos h2]

theorem readLoop_chunk (acc : List Nat) (r : HostRead) (rest : List HostRead)
    (h1 : r.code = 0) (h2 : r.count ≠ 0) (h3 : r.count ≤ bufSize) :
    readLoop acc (r :: rest) =
      (readLoop (acc ++ (scratch r.data).take r.count) rest).bump := by
  have hne : ¬ r.code = u32Max := by rw [h1]; exact (Ne.symm u32Max_ne_zero)
  simp only [readLoop]
  rw [if_neg hne, if_neg (not_not_intro h1), if_neg h2, if_pos h3]

theorem bump_isPanic (r : ReadResult α) : r.bump.isPanic = r.isPanic := by
  cases r <;> rfl

theorem addIters_err {α : Type} (n m : Nat) (k : HttpErrorKind) :
    addIters n (ReadResult.err k m : ReadResult α) = .err k (m + n) := by
  induction n with
  | zero => rfl
  | succ n ih => rw [addIters, ih]; rfl

theorem readLoop_retries (retries : List HostRead)
    (h : ∀ r ∈ retries, r.code = u32Max) (acc : List Nat)
    (rest : List HostRead) :
    readLoop acc (retries ++ rest) = addIters retries.length (readLoop acc rest) := by
  induction retries with
  | nil => rfl
  | cons r rs ih =>
    rw [List.cons_append, readLoop_retry _ _ _ (h r (by simp)),
      ih (fun x hx => h x (by simp [hx]))]
    rfl

theorem readLoop_chunkList (chunks : List (List Nat))
    (h : ∀ d ∈ chunks, d ≠ [] ∧ d.length ≤ bufSize) (acc : List Nat) :
    readLoop acc (chunks.map chunkRead ++ [endRead]) =
      .ok (acc ++ chunks.flatten) (chunks.length + 1) := by
  induction chunks generalizing acc with
  | nil =>
    rw [List.map_nil, List.nil_append, readLoop_done acc endRead [] rfl rfl]
    simp
  | cons d ds ih =>
    obtain ⟨hne, hlen⟩ := h d (by simp)
    have hcount : (chunkRead d).count ≠ 0 := by
      simpa [chunkRead] using hne
    rw [List.map_cons, List.cons_append,
      readLoop_chunk acc (chunkRead d) _ rfl hcount hlen]
    have hsc : (scratch (chunkRead d).data).take (chunkRead d).count = d :=
      scratch_take d hlen
    rw [hsc, ih (fun x hx => h x (by simp [hx]))]
    simp [ReadResult.bump]

theorem parse_escapeChar (c : Char) (t : List Char) :
    parseStringBody (escapeChar c ++ t) =
      (parseStringBody t).map (fun p => (c :: p.1, p.2)) := by
  by_cases h1 : c = '"'
  · subst h1
    rw [show escapeChar '"' ++ t = '\\' :: '"' :: t from rfl, parseStringBody.eq_def]
    rfl
  by_cases h2 : c = '\\'
  · subst h2
    rw [show escapeChar '\\' ++ t = '\\' :: '\\' :: t from rfl, parseStringBody.eq_def]
    rfl
  by_cases hlt : c.toNat < 32
  · obtain ⟨k, hk⟩ : ∃ k, c.toNat = k := ⟨c.toNat, rfl⟩
    rw [hk] at hlt
    have hc2 : c = Char.ofNat c.toNat := (Char.ofNat_toNat c).symm
    rw [hk] at hc2
    subst hc2
    interval_cases k <;> (rw [parseStringBody.eq_def]; rfl)
  · have h8 : ¬ c.toNat = 8 := by omega
    have h9 : ¬ c.toNat = 9 := by omega
    have h10 : ¬ c.toNat = 10 := by omega
    have h12 : ¬ c.toNat = 12 := by omega
    have h13 : ¬ c.toNat = 13 := by omega
    have he : escapeChar c = [c] := by
      simp only [escapeChar]
      rw [if_neg h1, if_neg h2, if_neg h8, if_neg h9, if_neg h10, if_neg h12,
        if_neg h13, if_neg hlt]
    rw [show escapeChar c ++ t = c :: t by rw [he]; rfl]
    rw [parseStringBody.eq_def]
    simp only [if_neg h1, if_neg h2, if_neg hlt]

theorem parse_escapeString (s : List Char) (t : List Char) :
    parseStringBody (escapeString s ++ ('"' :: t)) = some (s, t) := by
  induction s with
  | nil =>
    rw [show escapeString [] ++ ('"' :: t) = '"' :: t from rfl,
      parseStringBody.eq_def]
    rfl
  | cons c cs ih =>
    rw [show escapeString (c :: cs) = escapeChar c ++ escapeString cs from
        List.flatMap_cons .., List.append_assoc, parse_escapeChar, ih]
    rfl

theorem from_str_to_string (o : FetchOptions) :
    FetchOptions.from_str o.to_string = some o := by
  rw [show o.to_string = '\x7b' :: '"' :: 'm' :: 'e' :: 't' :: 'h' :: 'o' :: 'd' ::
      '"' :: ':' :: '"' :: (escapeString o.method.data ++ ('"' :: ['\x7d'])) from rfl,
    FetchOptions.from_str.eq_def]
  simp only [parse_escapeString o.method.data ['\x7d']]
  rfl

theorem get_header_run (h : BlocklessHttp) (hdr : String)
    (host : List Nat → List HostRead) :
    h.get_header hdr host =
      (match readLoop [] (host (strBytes hdr)) with
       | .ok bytes n =>
         (match from_utf8 bytes with
          | some s => .ok s n
          | none => .err HttpErrorKind.Utf8Error n)
       | .err k n => .err k n
       | .panicked n => .panicked n
       | .exhausted n => .exhausted n) := rfl

theorem readLoop_noPanic : ∀ (tr : List HostRead),
    (∀ r ∈ tr, r.code = 0 → r.count ≤ bufSize) →
    ∀ acc, (readLoop acc tr).isPanic = false := by
  intro tr
  induction tr with
  | nil => intro _ acc; rfl
  | cons r rest ih =>
    intro h acc
    have hrest := fun x hx => h x (List.mem_cons_of_mem _ hx)
    by_cases h1 : r.code = u32Max
    · rw [readLoop_retry _ _ _ h1, bump_isPanic]
      exact ih hrest acc
    · by_cases h2 : r.code = 0
      · by_cases h3 : r.count = 0
        · rw [readLoop_done _ _ _ h2 h3]; rfl
        · rw [readLoop_chunk _ _ _ h2 h3 (h r (List.mem_cons_self _ _) h2),
            bump_isPanic]
          exact ih hrest _
      · rw [readLoop_err _ _ _ h1 h2]; rfl

theorem get_header_isPanic (h : BlocklessHttp) (hdr : String)
    (host : List Nat → List HostRead) :
    (h.get_header hdr host).isPanic =
      (readLoop [] (host (strBytes hdr))).isPanic := by
  rw [get_header_run]
  cases readLoop [] (host (strBytes hdr)) with
  | ok v n => cases hu : from_utf8 v <;> simp [hu, ReadResult.isPanic]
  | err k n => rfl
  | panicked n => rfl
  | exhausted n => rfl

theorem fromU32_ge14 (c : Nat) (h : 14 ≤ c) :
    HttpErrorKind.fromU32 c = .RuntimeError := by
  have n1 : ¬ c = 1 := by omega
  have n2 : ¬ c = 2 := by omega
  have n3 : ¬ c = 3 := by omega
  have n4 : ¬ c = 4 := by omega
  have n5 : ¬ c = 5 := by omega
  have n6 : ¬ c = 6 := by omega
  have n7 : ¬ c = 7 := by omega
  have n8 : ¬ c = 8 := by omega
  have n9 : ¬ c = 9 := by omega
  have n10 : ¬ c = 10 := by omega
  have n11 : ¬ c = 11 := by omega
  have n12 : ¬ c = 12 := by omega
  have n13 : ¬ c = 13 := by omega
  simp only [HttpErrorKind.fromU32]
  rw [if_neg n1, if_neg n2, if_neg n3, if_neg n4, if_neg n5, if_neg n6,
    if_neg n7, if_neg n8, if_neg n9, if_neg n10, if_neg n11, if_neg n12,
    if_neg n13]

/-- Claim C1: over a host whose three successive code-0 body reads report
written counts 5, 3 and 0, `get_all_body` succeeds with an 8-byte accumulated
result after exactly 3 host-read iterations; in general, a code-0 read with a
positive count (within the scratch buffer) appends exactly `count` bytes from
the scratch buffer to the accumulator and loops again, and a code-0 read with
count 0 stops and returns the accumulated bytes. -/
theorem claim_C1_get_all_body_streaming (h : BlocklessHttp)
    (d1 d2 d3 : List Nat) :
    (h.get_all_body [⟨0, 5, d1⟩, ⟨0, 3, d2⟩, ⟨0, 0, d3⟩] =
        .ok ((scratch d1).take 5 ++ (scratch d2).take 3) 3
      ∧ ((scratch d1).take 5 ++ (scratch d2).take 3).length = 8)
    ∧ (∀ (acc : List Nat) (r : HostRead) (rest : List HostRead),
        r.code = 0 → r.count ≠ 0 → r.count ≤ bufSize →
        readLoop acc (r :: rest) =
            (readLoop (acc ++ (scratch r.data).take r.count) rest).bump
          ∧ ((scratch r.data).take r.count).length = r.count)
    ∧ (∀ (acc : List Nat) (r : HostRead) (rest : List HostRead),
        r.code = 0 → r.count = 0 → readLoop acc (r :: rest) = .ok acc 1) := by
  refine ⟨⟨?_, ?_⟩, ?_, ?_⟩
  · show readLoop [] [⟨0, 5, d1⟩, ⟨0, 3, d2⟩, ⟨0, 0, d3⟩] = _
    rw [readLoop_chunk [] ⟨0, 5, d1⟩ _ rfl (by simp) (by simp [bufSize]),
      readLoop_chunk _ ⟨0, 3, d2⟩ _ rfl (by simp) (by simp [bufSize]),
      readLoop_done _ ⟨0, 0, d3⟩ _ rfl rfl]
    simp [ReadResult.bump]
  · rw [List.length_append, take_scratch_length d1 5 (by decide),
      take_scratch_length d2 3 (by decide)]
  · intro acc r rest h1 h2 h3
    exact ⟨readLoop_chunk acc r rest h1 h2 h3, take_scratch_length r.data r.count h3⟩
  · intro acc r rest h1 h2
    exact readLoop_done acc r rest h1 h2

theorem claim_C1_witness :
    (readLoop [9] [⟨0, 2, [4, 5]⟩] =
        (readLoop ([9] ++ (scratch [4, 5]).take 2) []).bump
      ∧ ((scratch [4, 5]).take 2).length = 2)
    ∧ readLoop [7] [⟨0, 0, [1]⟩] = .ok [7] 1 :=
  ⟨(claim_C1_get_all_body_streaming ⟨1, 200⟩ [] [] []).2.1 [9] ⟨0, 2, [4, 5]⟩ []
      rfl (by decide) (by decide),
   (claim_C1_get_all_body_streaming ⟨1, 200⟩ [] [] []).2.2 [7] ⟨0, 0, [1]⟩ []
      rfl rfl⟩

/-- Claim C2: a streaming read (`get_all_body` or `get_header`) over a host
returning the `u32::MAX` retry sentinel `N` times and then a terminal
non-zero error code returns the error kind mapped from the terminal code
after exactly `N` retry iterations plus the terminal call, the accumulator
passing through the retries unchanged; the sentinel never surfaces as an
error. -/
theorem claim_C2_retry_then_terminal (h : BlocklessHttp) (hdr : String)
    (host : List Nat → List HostRead) (retries : List HostRead)
    (r : HostRead) (rest : List HostRead)
    (hre : ∀ x ∈ retries, x.code = u32Max)
    (h1 : r.code ≠ 0) (h2 : r.code ≠ u32Max) :
    h.get_all_body (retries ++ r :: rest) =
        .err (HttpErrorKind.fromU32 r.code) (retries.length + 1)
    ∧ (host (strBytes hdr) = retries ++ r :: rest →
        h.get_header hdr host =
          .err (HttpErrorKind.fromU32 r.code) (retries.length + 1))
    ∧ (∀ (acc : List Nat) (tail : List HostRead),
        readLoop acc (retries ++ tail) =
          addIters retries.length (readLoop acc tail)) := by
  have hkey : readLoop [] (retries ++ r :: rest) =
      .err (HttpErrorKind.fromU32 r.code) (retries.length + 1) := by
    rw [readLoop_retries retries hre [] (r :: rest),
      readLoop_err [] r rest h2 h1, addIters_err]
    rw [Nat.add_comm]
  refine ⟨hkey, ?_, ?_⟩
  · intro hh
    rw [get_header_run, hh, hkey]
  · intro acc tail
    exact readLoop_retries retries hre acc tail

theorem claim_C2_witness :
    readLoop [] [⟨u32Max, 0, []⟩, ⟨u32Max, 0, []⟩, ⟨4, 0, []⟩] =
      .err (HttpErrorKind.fromU32 4) 3 :=
  (claim_C2_retry_then_terminal ⟨1, 200⟩ "h" (fun _ => [])
      [⟨u32Max, 0, []⟩, ⟨u32Max, 0, []⟩] ⟨4, 0, []⟩ [] (by decide)
      (by decide) (by decide)).1

/-- Claim C3: `open` succeeds iff the host open primitive returns code 0: on
code 0 it yields a `BlocklessHttp` owning the host-provided handle whose
status code equals the host-provided status, and on any non-zero code it
yields the error kind mapped from that code, with no handle retained. -/
theorem claim_C3_open_iff_code_zero (url : String) (opts : FetchOptions)
    (host : String → List Char → OpenResponse) (r : OpenResponse)
    (hh : host url (optionsJsonStr opts) = r) :
    (r.code = 0 →
      BlocklessHttp.openRequest url opts host = .ok ⟨r.fd, r.status⟩
      ∧ (BlocklessHttp.mk r.fd r.status).get_code = r.status)
    ∧ (r.code ≠ 0 →
      BlocklessHttp.openRequest url opts host =
        .error (HttpErrorKind.fromU32 r.code)) := by
  constructor
  · intro h0
    refine ⟨?_, rfl⟩
    simp only [BlocklessHttp.openRequest, hh]
    rw [if_neg (not_not_intro h0)]
  · intro hne
    simp only [BlocklessHttp.openRequest, hh]
    rw [if_pos hne]

theorem claim_C3_witness :
    (BlocklessHttp.openRequest "u" ⟨"GET"⟩ (fun _ _ => ⟨0, 7, 200⟩) =
        .ok ⟨7, 200⟩
      ∧ (BlocklessHttp.mk 7 200).get_code = 200)
    ∧ BlocklessHttp.openRequest "u" ⟨"GET"⟩ (fun _ _ => ⟨9, 7, 200⟩) =
        .error (HttpErrorKind.fromU32 9) :=
  ⟨(claim_C3_open_iff_code_zero "u" ⟨"GET"⟩ (fun _ _ => ⟨0, 7, 200⟩)
      ⟨0, 7, 200⟩ rfl).1 rfl,
   (claim_C3_open_iff_code_zero "u" ⟨"GET"⟩ (fun _ _ => ⟨9, 7, 200⟩)
      ⟨9, 7, 200⟩ rfl).2 (by decide)⟩

/-- Claim C4 counterexample: for method "GET" the Request Descriptor object
`open` serializes is not the four-field object without `body` — the `body`
field is present, with value null (serde serializes the `None` body as JSON
null rather than omitting the key). -/
theorem claim_C4_counterexample :
    (HttpOptions.new "GET" 30 10).to_json ≠
        [("method", JsonValue.str "GET"), ("connectTimeout", JsonValue.num 30),
         ("readTimeout", JsonValue.num 10),
         ("headers", JsonValue.str "\x7b\x7d")]
      ∧ (HttpOptions.new "GET" 30 10).to_json =
        [("method", JsonValue.str "GET"), ("connectTimeout", JsonValue.num 30),
         ("readTimeout", JsonValue.num 10),
         ("headers", JsonValue.str "\x7b\x7d"),
         ("body", JsonValue.null)] := by
  exact ⟨by decide, rfl⟩

/-- Claim C4 (amended): for every method string, the Request Descriptor that
`open` serializes and passes to the host is the object with exactly the
fields `method` (the given string), `connectTimeout` 30, `readTimeout` 10,
`headers` the empty-object placeholder string, and `body` present with the
null value. -/
theorem claim_C4_descriptor_fields (m : String) :
    (HttpOptions.new m 30 10).to_json =
        [("method", JsonValue.str m), ("connectTimeout", JsonValue.num 30),
         ("readTimeout", JsonValue.num 10),
         ("headers", JsonValue.str "\x7b\x7d"),
         ("body", JsonValue.null)]
      ∧ optionsJsonStr ⟨m⟩ =
        jsonObjStr
          [("method", JsonValue.str m), ("connectTimeout", JsonValue.num 30),
           ("readTimeout", JsonValue.num 10),
           ("headers", JsonValue.str "\x7b\x7d"),
           ("body", JsonValue.null)] :=
  ⟨rfl, rfl⟩

/-- Claim C5 counterexample: the translation of host codes is not 1:1 on the
non-zero, non-sentinel codes — the unrecognized code 14 collides with the
recognized code 11, both mapping to `RuntimeError`. -/
theorem claim_C5_counterexample :
    HttpErrorKind.fromU32 14 = HttpErrorKind.fromU32 11
    ∧ (14 : Nat) ≠ 11 ∧ (14 : Nat) ≠ 0 ∧ (14 : Nat) ≠ u32Max
    ∧ (11 : Nat) ≠ 0 ∧ (11 : Nat) ≠ u32Max := by
  decide

/-- Claim C5 (amended): the recognized codes 1–13 map injectively onto the
thirteen error kinds other than `InvalidDriver` (which no code produces);
every other code — 0 or anything at least 14, hence every unrecognized
code — maps to `RuntimeError`, and the mapping is total, so it never
panics. -/
theorem claim_C5_code_mapping :
    (∀ c, c ≤ 13 → ∀ d, d ≤ 13 →
        HttpErrorKind.fromU32 c = HttpErrorKind.fromU32 d → 1 ≤ c → 1 ≤ d →
        c = d)
    ∧ (∀ k : HttpErrorKind, k ≠ .InvalidDriver →
        ∃ c, 1 ≤ c ∧ c ≤ 13 ∧ HttpErrorKind.fromU32 c = k)
    ∧ (∀ c, HttpErrorKind.fromU32 c ≠ .InvalidDriver)
    ∧ (∀ c, c = 0 ∨ 14 ≤ c → HttpErrorKind.fromU32 c = .RuntimeError) := by
  refine ⟨?_, ?_, ?_, ?_⟩
  · have hb : ∀ c < 14, ∀ d < 14,
        HttpErrorKind.fromU32 c = HttpErrorKind.fromU32 d → 1 ≤ c → 1 ≤ d →
        c = d := by decide
    intro c hc d hd
    exact hb c (by omega) d (by omega)
  · intro k hk
    cases k with
    | InvalidDriver => exact absurd rfl hk
    | InvalidHandle => exact ⟨1, by decide⟩
    | MemoryAccessError => exact ⟨2, by decide⟩
    | BufferTooSmall => exact ⟨3, by decide⟩
    | HeaderNotFound => exact ⟨4, by decide⟩
    | Utf8Error => exact ⟨5, by decide⟩
    | DestinationNotAllowed => exact ⟨6, by decide⟩
    | InvalidMethod => exact ⟨7, by decide⟩
    | InvalidEncoding => exact ⟨8, by decide⟩
    | InvalidUrl => exact ⟨9, by decide⟩
    | RequestError => exact ⟨10, by decide⟩
    | RuntimeError => exact ⟨11, by decide⟩
    | TooManySessions => exact ⟨12, by decide⟩
    | PermissionDeny => exact ⟨13, by decide⟩
  · intro c
    by_cases hc : c ≤ 13
    · have hb : ∀ c < 14, HttpErrorKind.fromU32 c ≠ .InvalidDriver := by decide
      exact hb c (by omega)
    · rw [fromU32_ge14 c (by omega)]
      decide
  · intro c hc
    rcases hc with h0 | h14
    · subst h0; decide
    · exact fromU32_ge14 c h14

theorem claim_C5_witness :
    HttpErrorKind.fromU32 255 = HttpErrorKind.RuntimeError ∧ (5 : Nat) = 5 :=
  ⟨claim_C5_code_mapping.2.2.2 255 (Or.inr (by decide)),
   claim_C5_code_mapping.1 5 (by decide) 5 (by decide) rfl (by decide)
     (by decide)⟩

/-- Claim C6: `close` performs exactly one host close call, on the owned
handle, and returns the unit value — no failure is observable to the caller
whatever code the host close primitive returns. -/
theorem claim_C6_close_fire_and_forget (h : BlocklessHttp)
    (hostClose : Nat → Nat) :
    (h.close hostClose).1 = () ∧
      (h.close hostClose).2 = [(h.inner, hostClose h.inner)] :=
  ⟨rfl, rfl⟩

/-- Claim C7: `get_header`'s behavior depends only on the host's responses to
the header-name byte buffer it passes on every iteration; the value bytes
accumulate across iterations, and on zero-byte completion the accumulator is
decoded as text — the accumulated text on valid UTF-8, the locally generated
`Utf8Error` kind otherwise. -/
theorem claim_C7_get_header_decode (h : BlocklessHttp) (hdr : String)
    (host host2 : List Nat → List HostRead) (chunks : List (List Nat))
    (hagree : host (strBytes hdr) = host2 (strBytes hdr))
    (hch : ∀ d ∈ chunks, d ≠ [] ∧ d.length ≤ bufSize)
    (htr : host (strBytes hdr) = chunks.map chunkRead ++ [endRead]) :
    h.get_header hdr host = h.get_header hdr host2
    ∧ (∀ s, from_utf8 chunks.flatten = some s →
        h.get_header hdr host = .ok s (chunks.length + 1))
    ∧ (from_utf8 chunks.flatten = none →
        h.get_header hdr host = .err HttpErrorKind.Utf8Error (chunks.length + 1)) := by
  have hloop : readLoop [] (chunks.map chunkRead ++ [endRead]) =
      .ok chunks.flatten (chunks.length + 1) := by
    rw [readLoop_chunkList chunks hch [], List.nil_append]
  refine ⟨?_, ?_, ?_⟩
  · rw [get_header_run, get_header_run, hagree]
  · intro s hs
    rw [get_header_run, htr, hloop]
    simp only [hs]
  · intro hn
    rw [get_header_run, htr, hloop]
    simp only [hn]

theorem claim_C7_witness :
    (⟨1, 200⟩ : BlocklessHttp).get_header "abc"
        (fun _ => [chunkRead [104, 105], endRead]) = .ok "hi" 2
    ∧ (⟨1, 200⟩ : BlocklessHttp).get_header "abc"
        (fun _ => [chunkRead [255], endRead]) =
          .err HttpErrorKind.Utf8Error 2 :=
  ⟨(claim_C7_get_header_decode ⟨1, 200⟩ "abc"
      (fun _ => [chunkRead [104, 105], endRead])
      (fun _ => [chunkRead [104, 105], endRead]) [[104, 105]] rfl (by decide)
      rfl).2.1 "hi" (by decide),
   (claim_C7_get_header_decode ⟨1, 200⟩ "abc"
      (fun _ => [chunkRead [255], endRead])
      (fun _ => [chunkRead [255], endRead]) [[255]] rfl (by decide)
      rfl).2.2 (by decide)⟩

/-- Claim C8: the single-shot `read_body` consumes exactly one host
buffered-read response: on code 0 it returns the reported byte count, and on
any non-zero code — the retry sentinel included, since no retry handling is
performed — it returns the mapped error kind. -/
theorem claim_C8_read_body_single (h : BlocklessHttp) (r : HostRead) :
    (r.code = 0 → h.read_body r = .ok r.count)
    ∧ (r.code ≠ 0 → h.read_body r = .error (HttpErrorKind.fromU32 r.code))
    ∧ (r.code = u32Max → h.read_body r = .error HttpErrorKind.RuntimeError) := by
  refine ⟨?_, ?_, ?_⟩
  · intro h0
    simp only [BlocklessHttp.read_body]
    rw [if_neg (not_not_intro h0)]
  · intro hne
    simp only [BlocklessHttp.read_body]
    rw [if_pos hne]
  · intro hmax
    have hr : HttpErrorKind.fromU32 r.code = .RuntimeError := by
      rw [hmax]
      exact fromU32_ge14 u32Max (by decide)
    simp only [BlocklessHttp.read_body]
    rw [if_pos (by rw [hmax]; exact u32Max_ne_zero), hr]

theorem claim_C8_witness :
    (⟨1, 200⟩ : BlocklessHttp).read_body ⟨0, 5, [1, 2]⟩ = .ok 5
    ∧ (⟨1, 200⟩ : BlocklessHttp).read_body ⟨4, 0, []⟩ =
        .error (HttpErrorKind.fromU32 4)
    ∧ (⟨1, 200⟩ : BlocklessHttp).read_body ⟨u32Max, 0, []⟩ =
        .error HttpErrorKind.RuntimeError :=
  ⟨(claim_C8_read_body_single ⟨1, 200⟩ ⟨0, 5, [1, 2]⟩).1 rfl,
   (claim_C8_read_body_single ⟨1, 200⟩ ⟨4, 0, []⟩).2.1 (by decide),
   (claim_C8_read_body_single ⟨1, 200⟩ ⟨u32Max, 0, []⟩).2.2 rfl⟩

/-- Claim C9: serializing a request descriptor, deserializing the result and
serializing again yields the same text as serializing once:
`encode (decode (encode d)) = encode d` for every `FetchOptions`. -/
theorem claim_C9_encode_stable (o : FetchOptions) :
    (FetchOptions.from_str o.to_string).map FetchOptions.to_string =
      some o.to_string := by
  rw [from_str_to_string]
  rfl

/-- Claim C10: when every code-0 host read reports a count within the
1024-byte scratch buffer, the read loops of `get_all_body` and `get_header`
never take the out-of-bounds slice `&buf[0..num]` — the panic branch is
unreachable under this precondition. -/
theorem claim_C10_no_out_of_bounds (tr : List HostRead)
    (hcount : ∀ r ∈ tr, r.code = 0 → r.count ≤ bufSize) :
    (∀ acc, (readLoop acc tr).isPanic = false)
    ∧ (∀ h : BlocklessHttp, (h.get_all_body tr).isPanic = false)
    ∧ (∀ (h : BlocklessHttp) (hdr : String) (host : List Nat → List HostRead),
        host (strBytes hdr) = tr →
        (h.get_header hdr host).isPanic = false) := by
  refine ⟨readLoop_noPanic tr hcount, ?_, ?_⟩
  · intro h
    exact readLoop_noPanic tr hcount []
  · intro h hdr host hh
    rw [get_header_isPanic, hh]
    exact readLoop_noPanic tr hcount []

theorem claim_C10_witness :
    (readLoop [] [⟨0, 5, [1, 2, 3, 4, 5]⟩, ⟨0, 0, []⟩]).isPanic = false :=
  (claim_C10_no_out_of_bounds [⟨0, 5, [1, 2, 3, 4, 5]⟩, ⟨0, 0, []⟩]
    (by decide)).1 []
